import Mathlib

/-
Shallow embedding of the bittorrent-swarm repository.

Two source files are modelled:
* the swarm module (namespace `Core`): the `Peer`/`Pool`/`Swarm` trio that
  manages outbound dialing with a connection cap, reconnect backoff,
  incoming-connection demultiplexing and swarm teardown;
* the peer module (namespace `PeerMod`): the newer stand-alone `Peer`
  state machine with an idempotent `destroy` path.

Mutable JS objects are modelled as explicit state records; object
references held in collections are modelled as keys into an address-keyed
store, asynchronous side effects (dials, timers, event emissions) as
explicit effect values returned next to the new state.
-/

set_option maxRecDepth 8000

namespace Core

/-- `var MAX_SIZE = 100` -/
def MAX_SIZE : Nat := 100

/-- `var HANDSHAKE_TIMEOUT = 5000` (the swarm module's single constant,
used both by `_drain` and by the Pool's incoming-connection path). -/
def HANDSHAKE_TIMEOUT : Nat := 5000

/-- `var RECONNECT_WAIT = [1000, 5000, 15000, 30000, 60000, 120000, 300000, 600000]` -/
def RECONNECT_WAIT : List Nat := [1000, 5000, 15000, 30000, 60000, 120000, 300000, 600000]

/-- First-match association-list lookup: JS property read `obj[k]`
(`none` stands for `undefined`). -/
def lookupAssoc {α : Type} : List (String × α) → String → Option α
  | [], _ => none
  | (k', v) :: rest, k => if k' = k then some v else lookupAssoc rest k

/-- JS property write `obj[k] = v`: replace in place when the key exists,
append otherwise. -/
def insertAssoc {α : Type} : List (String × α) → String → α → List (String × α)
  | [], k, v => [(k, v)]
  | (k', v') :: rest, k, v =>
      if k' = k then (k, v) :: rest else (k', v') :: insertAssoc rest k v

/-- In-place mutation of the object stored under a key (first match). -/
def updateAssoc {α : Type} : List (String × α) → String → (α → α) → List (String × α)
  | [], _, _ => []
  | (k', v) :: rest, k, f =>
      if k' = k then (k', f v) :: rest else (k', v) :: updateAssoc rest k f

/-- JS property delete `delete obj[k]`. -/
def eraseKey {α : Type} (l : List (String × α)) (k : String) : List (String × α) :=
  l.filter (fun kv => kv.1 != k)

/--
`function Peer (addr)` of the swarm module: nullable transport and wire
handles are Booleans (present / null), the pending reconnect timer a
Boolean, `retries` a counter.  The field `node` mirrors the fact that the
constructor assigns only `addr`, `conn`, `wire`, `timeout`, `retries` and
that no statement in the file ever assigns `peer.node`: reading it always
yields `undefined` (falsy), modelled as a Boolean that is initialized to
`false` and never set anywhere in this development.
-/
structure Peer where
  addr : String
  conn : Bool
  wire : Bool
  timeout : Bool
  retries : Nat
  node : Bool
deriving DecidableEq, Repr

/-- `new Peer(addr)`: `conn`, `wire`, `timeout` start out null, `retries` 0. -/
def newPeer (addr : String) : Peer :=
  { addr := addr, conn := false, wire := false, timeout := false, retries := 0, node := false }

/-- `Peer.prototype.onconnect`: records the connected transport and
attaches a fresh wire (`wire.remoteAddress = this.addr`). -/
def Peer.onconnect (p : Peer) : Peer :=
  { p with conn := true, wire := true }

/-- The peer built by the Pool's incoming-connection handler:
`new Peer(addr)` followed immediately by `peer.onconnect(conn)`. -/
def incomingPeer (addr : String) : Peer :=
  (newPeer addr).onconnect

/--
`function Swarm (infoHash, peerId, extensions)`: the fields assigned by
the constructor.  `wires` keeps the wires by the address of their owning
peer; `queue` holds the peers awaiting an outbound dial, by address (the
JS array holds object references; peers are identified by their address
key in `peers`).  The speedometers are external and carry no state the
claims mention.
-/
structure Swarm where
  infoHash : String
  port : Nat
  downloaded : Nat
  uploaded : Nat
  wires : List String
  queue : List String
  peers : List (String × Peer)
  paused : Bool
  destroyed : Bool
deriving DecidableEq, Repr

/-- A freshly constructed swarm. -/
def mkSwarm (infoHash : String) : Swarm :=
  { infoHash := infoHash, port := 0, downloaded := 0, uploaded := 0,
    wires := [], queue := [], peers := [], paused := false, destroyed := false }

/-- `numConns` getter: map each known peer to 1 when its `conn` is live,
0 otherwise, and sum. -/
def numConns (s : Swarm) : Nat :=
  (s.peers.map (fun kp => if kp.2.conn then 1 else 0)).foldl (fun prev current => prev + current) 0

/-- `numQueued` getter. -/
def numQueued (s : Swarm) : Nat := s.queue.length

/-- `numPeers` getter. -/
def numPeers (s : Swarm) : Nat := s.wires.length

def digitVal (c : Char) : Nat := c.toNat - '0'.toNat

def digitsToNat (cs : List Char) : Nat :=
  cs.foldl (fun n c => 10 * n + digitVal c) 0

/--
The value of a JS number produced from a string, kept exact: either the
finite decimal `(if neg then -1 else 1) * mantissa * 10 ^ exp`, or an
infinity.  `Number(...)` additionally rounds this mathematical value to
an IEEE-754 binary64; that final rounding is not modelled — it can only
move a value across the port bounds for literals with more significant
digits than binary64 resolves.
-/
inductive JsNum where
  | finite (neg : Bool) (mantissa : Nat) (exp : Int)
  | inf (neg : Bool)
deriving DecidableEq, Repr

/-- The rational value of a finite JS number. -/
def finiteRat (neg : Bool) (m : Nat) (e : Int) : ℚ :=
  (if neg then -(m : ℚ) else (m : ℚ)) * (10 : ℚ) ^ e

/-- The JS comparison `0 < v`, computed exactly on the representation. -/
def JsNum.posB : JsNum → Bool
  | .finite neg m _ => !neg && decide (0 < m)
  | .inf neg => !neg

/-- The JS comparison `v < n` against a natural bound, computed exactly
on the representation: the power of ten is cleared from the denominator
(exactly one of the two clamped exponents is nonzero). -/
def JsNum.ltNatB : JsNum → Nat → Bool
  | .finite neg m e, n => neg || decide (m * 10 ^ e.toNat < n * 10 ^ (-e).toNat)
  | .inf neg, _ => neg

/-- The `StrWhiteSpace` characters of the ECMAScript string-number
grammar: WhiteSpace (TAB, VT, FF, SP, NBSP, ZWNBSP and the Unicode
space separators) and the line terminators (LF, CR, LS, PS). -/
def isStrWhiteSpace (c : Char) : Bool :=
  [0x9, 0xA, 0xB, 0xC, 0xD, 0x20, 0xA0, 0x1680, 0x2000, 0x2001, 0x2002, 0x2003,
   0x2004, 0x2005, 0x2006, 0x2007, 0x2008, 0x2009, 0x200A, 0x2028, 0x2029,
   0x202F, 0x205F, 0x3000, 0xFEFF].contains c.toNat

/-- Value of one digit in a radix up to 16, `none` for a non-digit. -/
def hexDigitVal? (c : Char) : Option Nat :=
  if '0' ≤ c ∧ c ≤ '9' then some (c.toNat - '0'.toNat)
  else if 'a' ≤ c ∧ c ≤ 'f' then some (c.toNat - 'a'.toNat + 10)
  else if 'A' ≤ c ∧ c ≤ 'F' then some (c.toNat - 'A'.toNat + 10)
  else none

/-- Value of a digit run in the given radix (most significant first),
`none` as soon as a character is no digit of that radix. -/
def radixVal? (radix : Nat) : List Char → Nat → Option Nat
  | [], acc => some acc
  | c :: cs, acc =>
      match hexDigitVal? c with
      | none => none
      | some d => if d < radix then radixVal? radix cs (radix * acc + d) else none

/-- `ExponentPart?` closing a decimal literal: empty input means
exponent 0; otherwise `e`/`E` followed by an optionally signed nonempty
digit run consuming the whole input. -/
def parseExponent : List Char → Option Int
  | [] => some 0
  | c :: rest =>
      if c = 'e' ∨ c = 'E' then
        match rest with
        | '+' :: ds =>
            if !ds.isEmpty && ds.all Char.isDigit then some (digitsToNat ds : Int) else none
        | '-' :: ds =>
            if !ds.isEmpty && ds.all Char.isDigit then some (-(digitsToNat ds : Int)) else none
        | ds =>
            if !ds.isEmpty && ds.all Char.isDigit then some (digitsToNat ds : Int) else none
      else none

/-- `StrUnsignedDecimalLiteral` without the `Infinity` production:
`DecimalDigits . DecimalDigits? ExponentPart?`,
`. DecimalDigits ExponentPart?` or `DecimalDigits ExponentPart?`,
consuming the whole input; yields the digits' value, the fraction
length and the exponent. -/
def parseUnsignedDec (cs : List Char) : Option (Nat × Nat × Int) :=
  let ip := cs.takeWhile Char.isDigit
  let r1 := cs.dropWhile Char.isDigit
  match r1 with
  | [] => if ip.isEmpty then none else some (digitsToNat ip, 0, 0)
  | '.' :: r2 =>
      let fp := r2.takeWhile Char.isDigit
      let r3 := r2.dropWhile Char.isDigit
      if ip.isEmpty && fp.isEmpty then none
      else
        match parseExponent r3 with
        | none => none
        | some ex => some (digitsToNat ip * 10 ^ fp.length + digitsToNat fp, fp.length, ex)
  | _ =>
      if ip.isEmpty then none
      else
        match parseExponent r1 with
        | none => none
        | some ex => some (digitsToNat ip, 0, ex)

/-- `Infinity` or an unsigned decimal literal, the sign already
consumed. -/
def parseUnsignedNum (neg : Bool) (cs : List Char) : Option JsNum :=
  if cs = ['I', 'n', 'f', 'i', 'n', 'i', 't', 'y'] then some (JsNum.inf neg)
  else
    match parseUnsignedDec cs with
    | none => none
    | some (m, frac, ex) => some (JsNum.finite neg m (ex - frac))

/-- `StrDecimalLiteral`: an optional sign, then `Infinity` or a decimal
literal. -/
def parseSignedPart : List Char → Option JsNum
  | '+' :: rest => parseUnsignedNum false rest
  | '-' :: rest => parseUnsignedNum true rest
  | cs => parseUnsignedNum false cs

/-- `StrNumericLiteral`: a sign-less binary (`0b`), octal (`0o`) or hex
(`0x`) integer literal, or a signed decimal literal / `Infinity`. -/
def parseNumericLiteral (cs : List Char) : Option JsNum :=
  match cs with
  | '0' :: c :: rest =>
      if c = 'x' ∨ c = 'X' then
        if rest.isEmpty then none
        else (radixVal? 16 rest 0).map (fun v => JsNum.finite false v 0)
      else if c = 'o' ∨ c = 'O' then
        if rest.isEmpty then none
        else (radixVal? 8 rest 0).map (fun v => JsNum.finite false v 0)
      else if c = 'b' ∨ c = 'B' then
        if rest.isEmpty then none
        else (radixVal? 2 rest 0).map (fun v => JsNum.finite false v 0)
      else parseSignedPart cs
  | cs => parseSignedPart cs

/-- `Number(s)` on a string, NaN as `none`: the ECMAScript
`StringNumericLiteral` grammar — the whitespace-trimmed input is empty
(value 0), a non-decimal integer literal, or an optionally signed
decimal literal / `Infinity` (so `Number` also converts exponent
literals such as `"1e3"`, hex such as `"0x50"`, and whitespace-padded
numerals such as `" 80"`). -/
def jsToNumber (s : String) : Option JsNum :=
  let cs := ((s.data.dropWhile isStrWhiteSpace).reverse.dropWhile isStrWhiteSpace).reverse
  match cs with
  | [] => some (JsNum.finite false 0 0)
  | cs => parseNumericLiteral cs

/-- `String.prototype.split` with a single-character separator, over the
character list. -/
def jsSplitChar (sep : Char) : List Char → List Char → List (List Char)
  | [], acc => [acc.reverse]
  | c :: cs, acc =>
      if c = sep then acc.reverse :: jsSplitChar sep cs []
      else jsSplitChar sep cs (c :: acc)

/-- `s.split(sep)` for a one-character separator. -/
def jsSplit (s : String) (sep : Char) : List String :=
  (jsSplitChar sep s.data []).map String.mk

/-- `function validAddr (addr)`:
`var port = Number(addr.split(':')[1]); return port > 0 && port < 65535`.
An out-of-range index yields `undefined`, `Number(undefined)` is NaN, and
every comparison against NaN is false. -/
def validAddr (addr : String) : Bool :=
  match (jsSplit addr ':').get? 1 with
  | none => false
  | some p =>
      match jsToNumber p with
      | none => false
      | some port => port.posB && port.ltNatB 65535

/-- Parse of a plain decimal-integer numeral (nothing but digits). -/
def decNat? (cs : List Char) : Option Nat :=
  if cs.isEmpty || !cs.all Char.isDigit then none else some (digitsToNat cs)

/-- The validator as the specification words it (not the source): the
port substring must parse as a decimal integer, accepted iff
`0 < port < 65535`.  Kept for comparison with `validAddr`. -/
def validAddrSpec (addr : String) : Bool :=
  match (jsSplit addr ':').get? 1 with
  | none => false
  | some p =>
      match decNat? p.data with
      | none => false
      | some port => decide (0 < port) && decide (port < 65535)

/-- Asynchronous side effects requested by the swarm's methods. -/
inductive Effect where
  /-- `net.connect(...)` plus the handshake deadline armed right after it
  (the deadline's callback is `conn.destroy()`). -/
  | dial (addr : String) (handshakeTimeoutMs : Nat)
  /-- An event emitted (or scheduled via `process.nextTick`) on the swarm. -/
  | emit (name : String)
  /-- Our handshake written to the given peer's wire. -/
  | handshakeSent (addr : String)
  /-- `Pool.remove(this)`. -/
  | detachPool
deriving DecidableEq, Repr

/--
`Swarm.prototype._drain`: return when at the connection cap or paused;
otherwise shift the queue head, clear its pending reconnect timer, open
an outbound TCP connection and arm a `HANDSHAKE_TIMEOUT` deadline whose
firing destroys the connection.  The `connect`/`error` handlers run
asynchronously and are modelled separately (`wireEndStep`).
-/
def _drain (s : Swarm) : Swarm × List Effect :=
  if MAX_SIZE ≤ numConns s ∨ s.paused = true then (s, [])
  else
    match s.queue with
    | [] => (s, [])
    | addr :: rest =>
        let s1 := { s with queue := rest,
                           peers := updateAssoc s.peers addr (fun p => { p with timeout := false }) }
        (s1, [Effect.dial addr HANDSHAKE_TIMEOUT])

/-- `Swarm.prototype.add`: no-op when destroyed, when the address is
already known, or when the address fails `validAddr`; otherwise record a
fresh peer, append it to the queue and call `_drain`. -/
def add (s : Swarm) (addr : String) : Swarm × List Effect :=
  if s.destroyed || (lookupAssoc s.peers addr).isSome then (s, [])
  else if !validAddr addr then (s, [])
  else
    _drain { s with peers := insertAssoc s.peers addr (newPeer addr),
                    queue := s.queue ++ [addr] }

/--
`Swarm.prototype._remove`: look the peer up (absent: return), delete it
from `_peers`, and splice it out of `_queue` only under `if (peer.node)`
— a property no code in the file ever assigns, so the splice is
unreachable.  Clearing the peer's timer and destroying its wire act on
the removed peer object only.
-/
def _remove (s : Swarm) (addr : String) : Swarm :=
  match lookupAssoc s.peers addr with
  | none => s
  | some peer =>
      let s1 := { s with peers := eraseKey s.peers addr }
      if peer.node then
        { s1 with queue := s1.queue.filter (fun a => a != addr) }
      else s1

/-- `Swarm.prototype.destroy`: set `_destroyed`, `_remove` every key of
`_peers`, detach from the Pool, and schedule a `close` emission on the
next tick (after `destroy` has returned).  The method has no
already-destroyed guard. -/
def destroy (s : Swarm) : Swarm × List Effect :=
  let s1 := { s with destroyed := true }
  let s2 := (s1.peers.map Prod.fst).foldl _remove s1
  (s2, [Effect.detachPool, Effect.emit "close"])

/-- `Swarm.prototype._onwire`: reset the peer's retry counter, subscribe
the byte counters (asynchronous), push the wire and emit `wire`. -/
def _onwire (s : Swarm) (addr : String) : Swarm × List Effect :=
  let s1 := { s with peers := updateAssoc s.peers addr (fun p => { p with retries := 0 }) }
  ({ s1 with wires := s1.wires ++ [addr] }, [Effect.emit "wire"])

/--
`Swarm.prototype._onincoming`: record the peer under
`peer.wire.remoteAddress` (which `onconnect` set to the peer's address),
send our handshake, run the post-connect hook (`_onconn` only installs an
asynchronous close listener) and promote via `_onwire`.  No connection-cap
check is performed on this path.
-/
def _onincoming (s : Swarm) (p : Peer) : Swarm × List Effect :=
  let s1 := { s with peers := insertAssoc s.peers p.addr p }
  let r := _onwire s1 p.addr
  (r.1, Effect.handshakeSent p.addr :: r.2)

/--
The wire `end` handler installed by `_drain`'s `connect` callback, as a
function of the captured state it reads (`this._destroyed`,
`wire.destroyed`, `peer.retries`): `none` means
`this._remove(peer.addr)` (permanent removal), `some (delay, r)` means
the peer's re-enqueue (`readd`, which pushes the peer and drains) is
scheduled after `delay` ms with `peer.retries` now `r`.
-/
def wireEndStep (swarmDestroyed wireDestroyed : Bool) (retries : Nat) : Option (Nat × Nat) :=
  if swarmDestroyed = true ∨ wireDestroyed = true ∨ RECONNECT_WAIT.length ≤ retries then
    none
  else
    some (RECONNECT_WAIT.getD retries 0, retries + 1)

/-- The retry counter after `k` consecutive failed re-dials (wire ends
with the swarm and wire alive throughout, no intervening handshake):
`none` once the schedule is exhausted. -/
def retriesAfter : Nat → Nat → Option Nat
  | 0, r => some r
  | k + 1, r =>
      match wireEndStep false false r with
      | none => none
      | some (_, r2) => retriesAfter k r2

/-- Count of scheduled `close` emissions in an effect list. -/
def countClose (l : List Effect) : Nat :=
  l.countP (fun e => decide (e = Effect.emit "close"))

/-- `function Pool (port)`: listening server state; `swarms` maps the hex
info-hash to the registered swarm (swarms are identified by an id). -/
structure PoolSt where
  port : Nat
  swarms : List (String × Nat)
  listening : Bool
  conns : List Nat
  retries : Nat
deriving DecidableEq, Repr

/-- Events scheduled (via `process.nextTick`) on a swarm by the Pool,
carrying the target swarm's id. -/
inductive PoolEvent where
  | listening (sid : Nat)
  | error (sid : Nat)
deriving DecidableEq, Repr

/--
`Pool.prototype.addSwarm`: when the pool is already listening, a
`listening` emission on the argument swarm is scheduled first; only then
is the duplicate-info-hash check performed, which schedules an `error`
emission on the argument swarm and returns without touching `swarms`.
A non-duplicate is recorded in `swarms`.
-/
def addSwarm (p : PoolSt) (sid : Nat) (ih : String) : PoolSt × List PoolEvent :=
  let evs := if p.listening = true then [PoolEvent.listening sid] else []
  match lookupAssoc p.swarms ih with
  | some _ => (p, evs ++ [PoolEvent.error sid])
  | none => ({ p with swarms := insertAssoc p.swarms ih sid }, evs)

/-- Result of `Pool.prototype._onerror`: the pool state afterwards, the
delay of a scheduled listen retry, the swarms that received an `error`
event, and a raised JS exception when one escapes the handler. -/
structure OnErrorRes where
  pool : PoolSt
  retryDelayMs : Option Nat
  errorsDelivered : List Nat
  thrown : Option String
deriving DecidableEq, Repr

/--
`Pool.prototype._onerror`: on `EADDRINUSE` with fewer than 5 retries,
schedule (after 1000 ms) `_retries += 1; server.close(); server.listen(port)`.
Otherwise set `listening = false` and run `this.swarms.forEach(...)` —
but `swarms` is a plain object, which has no `forEach` method, so the
statement raises a TypeError before any swarm receives an `error` event.
-/
def onerror (p : PoolSt) (code : String) : OnErrorRes :=
  if code = "EADDRINUSE" ∧ p.retries < 5 then
    { pool := p, retryDelayMs := some 1000, errorsDelivered := [], thrown := none }
  else
    { pool := { p with listening := false }, retryDelayMs := none,
      errorsDelivered := [],
      thrown := some "TypeError: this.swarms.forEach is not a function" }

/-- The handshake deadline armed on an incoming connection by
`Pool.prototype._onconn` (`setTimeout(function () { conn.destroy() }, HANDSHAKE_TIMEOUT)`). -/
def onconnTimeoutMs : Nat := HANDSHAKE_TIMEOUT

end Core

namespace PeerMod

/-- `var HANDSHAKE_TIMEOUT = 25000` (the peer module's constant, used by
`Peer.prototype.setTimeout` for every peer of that module). -/
def HANDSHAKE_TIMEOUT : Nat := 25000

/--
The state of the swarm object a peer of the peer module may back-reference.
The peer module's companion swarm implementation is not among the sources;
only the members `Peer.prototype.destroy` touches are modelled.
`wires` is the swarm's list of active wires (by tag), `peers` its `_peers`
keys, `drains` counts the `_drain` admission attempts requested.
-/
structure SwarmView where
  wires : List String
  peers : List String
  drains : Nat
deriving DecidableEq, Repr

/-- `function Peer (id)` of the peer module.  Nullable members are
Options / Booleans; `swarmPresent` says whether the `swarm`
back-reference is non-null (the referenced swarm's state is passed
alongside the peer where needed). -/
structure PeerState where
  id : String
  addr : Option String
  connPresent : Bool
  swarmPresent : Bool
  wireTag : Option String
  destroyed : Bool
  timeoutArmed : Bool
  retries : Nat
  sentHandshake : Bool
deriving DecidableEq, Repr

/-- `exports.createOutgoingTCPPeer(addr, swarm)`: a fresh peer with the
swarm back-reference and address set; no transport yet. -/
def createOutgoingTCPPeer (addr : String) : PeerState :=
  { id := addr, addr := some addr, connPresent := false, swarmPresent := true,
    wireTag := none, destroyed := false, timeoutArmed := false, retries := 0,
    sentHandshake := false }

/--
`exports.createIncomingTCPPeer(conn)`: a fresh peer for an
already-connected transport, with **no** swarm back-reference (the swarm
is unknown until the remote handshake arrives).  `onConnect()` runs at
once: it attaches a wire, installs the teardown handlers, and arms the
handshake deadline via `setTimeout()`; no handshake is sent because
`self.swarm` is null.
-/
def createIncomingTCPPeer (addr : String) : PeerState :=
  { id := addr, addr := some addr, connPresent := true, swarmPresent := false,
    wireTag := some addr, destroyed := false, timeoutArmed := true, retries := 0,
    sentHandshake := false }

/-- `Array.prototype.indexOf`: index of the first occurrence, `-1` when
absent (also for `indexOf(null)`, i.e. a `none` sought value). -/
def jsIndexOf (l : List String) : Option String → Int
  | none => -1
  | some x =>
      match l.indexOf? x with
      | some i => (i : Int)
      | none => -1

/-- `Array.prototype.splice(start, 1)`: a negative start counts from the
end (`splice(-1, 1)` removes the last element). -/
def jsSpliceOne (l : List String) (i : Int) : List String :=
  let len : Int := l.length
  let j := (if i < 0 then max (len + i) 0 else min i len).toNat
  l.take j ++ l.drop (j + 1)

/--
`Peer.prototype.destroy(err)` run against the peer's state and the state
`sv` of the swarm object its back-reference points to (ignored while the
reference is null).  Returns the new states and a raised JS exception:
1. already destroyed: return unchanged;
2. mark destroyed; destroy the transport object if present;
3. `self.swarm.wires.splice(self.swarm.wires.indexOf(self.wire), 1)` is
   **unguarded** — with a null swarm it raises a TypeError (the
   `if (self.swarm)` guard only comes three statements later);
4. destroy the wire if present; `swarm.removePeer(self.id)` and
   `swarm._drain()` (these two live in the peer module's companion swarm
   file, which is not among the sources; modelled from the spec: the
   swarm deletes the peer from `_peers` and attempts one more admission);
5. clear the timer, null out `conn`, `swarm`, `wire`.
-/
def destroy (ps : PeerState) (sv : SwarmView) : (PeerState × SwarmView) × Option String :=
  if ps.destroyed = true then ((ps, sv), none)
  else
    let ps1 := { ps with destroyed := true }
    if ps1.swarmPresent = false then
      ((ps1, sv), some "TypeError: Cannot read property wires of null")
    else
      let sv1 := { sv with wires := jsSpliceOne sv.wires (jsIndexOf sv.wires ps1.wireTag) }
      let sv2 := { sv1 with peers := sv1.peers.filter (fun i => i != ps1.id),
                            drains := sv1.drains + 1 }
      let ps2 := { ps1 with timeoutArmed := false, connPresent := false,
                            swarmPresent := false, wireTag := none }
      ((ps2, sv2), none)

/-- `n` successive `destroy()` calls: the final states plus every raised
exception, in call order. -/
def destroyIter : Nat → PeerState → SwarmView → (PeerState × SwarmView) × List String
  | 0, ps, sv => ((ps, sv), [])
  | n + 1, ps, sv =>
      let r := destroy ps sv
      let rest := destroyIter n r.1.1 r.1.2
      (rest.1, r.2.toList ++ rest.2)

end PeerMod

namespace Core

/-- 100 distinct peers, each with a live transport. -/
def manyPeers : List (String × Peer) :=
  (List.range 100).map (fun i => (toString i, { newPeer (toString i) with conn := true, wire := true }))

/-- A swarm sitting exactly at the connection cap. -/
def s100 : Swarm := { mkSwarm "11" with peers := manyPeers }

/-- An incoming peer the Pool routes to a swarm after its handshake. -/
def pIn : Peer := incomingPeer "9.9.9.9:999"

/-- A swarm with one queued, not yet dialed peer. -/
def sD : Swarm :=
  { mkSwarm "22" with peers := [("a:1", newPeer "a:1")], queue := ["a:1"] }

/-- A swarm with one known peer, used for the destroy scenarios. -/
def s3c : Swarm :=
  { mkSwarm "cc" with peers := [("1.1.1.1:1", newPeer "1.1.1.1:1")] }

/-- A swarm whose single peer is still sitting on the queue. -/
def s8 : Swarm :=
  { mkSwarm "dd" with peers := [("9.9.9.9:9", newPeer "9.9.9.9:9")], queue := ["9.9.9.9:9"] }

/-- A freshly constructed swarm. -/
def s9 : Swarm := mkSwarm "aa"

/-- Another freshly constructed swarm. -/
def sW9 : Swarm := mkSwarm "bb"

/-- A listening pool that already holds a swarm with info-hash `aa`. -/
def pC6 : PoolSt :=
  { port := 6881, swarms := [("aa", 1)], listening := true, conns := [], retries := 0 }

/-- A pool that is not yet listening, holding one swarm. -/
def pW : PoolSt :=
  { port := 6881, swarms := [("aa", 1)], listening := false, conns := [], retries := 0 }

/-- A pool whose bind retries are exhausted. -/
def p7 : PoolSt :=
  { port := 6881, swarms := [("aa", 1)], listening := true, conns := [], retries := 5 }

end Core

namespace PeerMod

/-- An outgoing peer attached to a swarm. -/
def psOut : PeerState := createOutgoingTCPPeer "1.1.1.1:6881"

/-- The state of the swarm `psOut` belongs to. -/
def svW : SwarmView := { wires := ["w1"], peers := ["1.1.1.1:6881"], drains := 0 }

/-- An incoming TCP peer no swarm has adopted yet. -/
def psIn : PeerState := createIncomingTCPPeer "5.6.7.8:1234"

/-- An arbitrary swarm state (irrelevant to a swarm-less peer). -/
def svIn : SwarmView := { wires := [], peers := [], drains := 0 }

end PeerMod

section Lemmas

theorem lookupAssoc_insertAssoc {α : Type} (l : List (String × α)) (k : String) (v : α) :
    Core.lookupAssoc (Core.insertAssoc l k v) k = some v := by
  induction l with
  | nil => simp [Core.insertAssoc, Core.lookupAssoc]
  | cons hd tl ih =>
      by_cases h : hd.1 = k
      · simp [Core.insertAssoc, Core.lookupAssoc, h]
      · simp [Core.insertAssoc, Core.lookupAssoc, h, ih]

theorem lookupAssoc_updateAssoc {α : Type} (l : List (String × α)) (k : String) (f : α → α) :
    Core.lookupAssoc (Core.updateAssoc l k f) k = (Core.lookupAssoc l k).map f := by
  induction l with
  | nil => simp [Core.updateAssoc, Core.lookupAssoc]
  | cons hd tl ih =>
      by_cases h : hd.1 = k
      · simp [Core.updateAssoc, Core.lookupAssoc, h]
      · simp [Core.updateAssoc, Core.lookupAssoc, h, ih]

theorem insertAssoc_of_absent {α : Type} (l : List (String × α)) (k : String) (v : α)
    (h : Core.lookupAssoc l k = none) :
    Core.insertAssoc l k v = l ++ [(k, v)] := by
  induction l with
  | nil => simp [Core.insertAssoc]
  | cons hd tl ih =>
      by_cases hk : hd.1 = k
      · simp [Core.lookupAssoc, hk] at h
      · simp [Core.lookupAssoc, hk] at h
        simp [Core.insertAssoc, hk, ih h]

theorem eraseKey_of_absent {α : Type} (l : List (String × α)) (k : String)
    (h : Core.lookupAssoc l k = none) :
    Core.eraseKey l k = l := by
  induction l with
  | nil => rfl
  | cons hd tl ih =>
      by_cases hk : hd.1 = k
      · simp [Core.lookupAssoc, hk] at h
      · simp only [Core.lookupAssoc, if_neg hk] at h
        have htl := ih h
        unfold Core.eraseKey at htl ⊢
        simp [List.filter_cons, bne_iff_ne, hk, htl]

theorem remove_peers_eq (s : Core.Swarm) (a : String) :
    (Core._remove s a).peers = Core.eraseKey s.peers a := by
  unfold Core._remove
  cases hl : Core.lookupAssoc s.peers a with
  | none => simp [eraseKey_of_absent s.peers a hl]
  | some p =>
      by_cases hn : p.node <;> simp [hn]

theorem remove_destroyed_eq (s : Core.Swarm) (a : String) :
    (Core._remove s a).destroyed = s.destroyed := by
  unfold Core._remove
  cases hl : Core.lookupAssoc s.peers a with
  | none => rfl
  | some p => by_cases hn : p.node <;> simp [hn]

theorem foldl_remove_peers (ks : List String) :
    ∀ s : Core.Swarm, (ks.foldl Core._remove s).peers = ks.foldl Core.eraseKey s.peers := by
  induction ks with
  | nil => intro s; rfl
  | cons k ks ih =>
      intro s
      have h1 := remove_peers_eq s k
      simp only [List.foldl_cons]
      rw [ih (Core._remove s k), h1]

theorem foldl_remove_destroyed (ks : List String) :
    ∀ s : Core.Swarm, (ks.foldl Core._remove s).destroyed = s.destroyed := by
  induction ks with
  | nil => intro s; rfl
  | cons k ks ih =>
      intro s
      simp only [List.foldl_cons]
      rw [ih (Core._remove s k), remove_destroyed_eq]

theorem foldl_eraseKey_all {α : Type} (ks : List String) :
    ∀ l : List (String × α), (∀ kv ∈ l, kv.1 ∈ ks) → ks.foldl Core.eraseKey l = [] := by
  induction ks with
  | nil =>
      intro l h
      cases l with
      | nil => rfl
      | cons hd tl => exact absurd (h hd (List.mem_cons_self hd tl)) (List.not_mem_nil hd.1)
  | cons k ks ih =>
      intro l h
      simp only [List.foldl_cons]
      apply ih
      intro kv hkv
      have hmem := List.mem_filter.mp hkv
      have hne : kv.1 ≠ k := by
        have := hmem.2
        simpa [bne_iff_ne] using this
      have := h kv hmem.1
      rcases List.mem_cons.mp this with heq | hks
      · exact absurd heq hne
      · exact hks

theorem destroy_sets_destroyed (ps : PeerMod.PeerState) (sv : PeerMod.SwarmView) :
    ((PeerMod.destroy ps sv).1.1).destroyed = true := by
  unfold PeerMod.destroy
  by_cases h : ps.destroyed = true
  · simp [h]
  · by_cases hs : ps.swarmPresent = false <;> simp [h, hs]

theorem destroy_of_destroyed (ps : PeerMod.PeerState) (sv : PeerMod.SwarmView)
    (h : ps.destroyed = true) :
    PeerMod.destroy ps sv = ((ps, sv), none) := by
  unfold PeerMod.destroy
  simp [h]

theorem destroyIter_of_destroyed (n : Nat) :
    ∀ (ps : PeerMod.PeerState) (sv : PeerMod.SwarmView), ps.destroyed = true →
      PeerMod.destroyIter n ps sv = ((ps, sv), []) := by
  induction n with
  | zero => intro ps sv _; rfl
  | succ n ih =>
      intro ps sv h
      simp only [PeerMod.destroyIter, destroy_of_destroyed ps sv h, ih ps sv h,
        Option.toList_none, List.nil_append]

theorem retriesAfter_spec (k : Nat) :
    ∀ r r' : Nat, Core.retriesAfter k r = some r' →
      r' = r + k ∧ (1 ≤ k → r + k ≤ Core.RECONNECT_WAIT.length) := by
  induction k with
  | zero =>
      intro r r' h
      simp only [Core.retriesAfter, Option.some.injEq] at h
      have hlen : Core.RECONNECT_WAIT.length = 8 := rfl
      omega
  | succ k ih =>
      intro r r' h
      by_cases hr : Core.RECONNECT_WAIT.length ≤ r
      · have hnone : Core.wireEndStep false false r = none := by
          unfold Core.wireEndStep
          rw [if_pos (Or.inr (Or.inr hr))]
        simp [Core.retriesAfter, hnone] at h
      · have hlt : r < Core.RECONNECT_WAIT.length := Nat.lt_of_not_le hr
        have hsome : Core.wireEndStep false false r
            = some (Core.RECONNECT_WAIT.getD r 0, r + 1) := by
          unfold Core.wireEndStep
          rw [if_neg]
          intro hc
          rcases hc with hc | hc | hc
          · exact Bool.noConfusion hc
          · exact Bool.noConfusion hc
          · omega
        simp only [Core.retriesAfter, hsome] at h
        obtain ⟨h1, h2⟩ := ih (r + 1) r' h
        constructor
        · omega
        · intro _
          rcases Nat.eq_zero_or_pos k with hk | hk
          · omega
          · have := h2 hk
            omega

end Lemmas


section JsNumFidelity

theorem JsNum_posB_iff (neg : Bool) (m : Nat) (e : Int) :
    (Core.JsNum.finite neg m e).posB = true ↔ 0 < Core.finiteRat neg m e := by
  have h10 : (0 : ℚ) < (10 : ℚ) ^ e := zpow_pos (by norm_num) e
  cases neg
  · show (!false && decide (0 < m)) = true ↔ 0 < Core.finiteRat false m e
    rw [show Core.finiteRat false m e = (m : ℚ) * (10 : ℚ) ^ e from by simp [Core.finiteRat]]
    simp only [Bool.not_false, Bool.true_and, decide_eq_true_eq]
    constructor
    · intro hm
      exact mul_pos (by exact_mod_cast hm) h10
    · intro hpos
      rcases Nat.eq_zero_or_pos m with h0 | h0
      · rw [h0] at hpos
        simp at hpos
      · exact h0
  · show (!true && decide (0 < m)) = true ↔ 0 < Core.finiteRat true m e
    rw [show Core.finiteRat true m e = -(m : ℚ) * (10 : ℚ) ^ e from by simp [Core.finiteRat]]
    simp only [Bool.not_true, Bool.false_and]
    constructor
    · intro h
      exact absurd h (by simp)
    · intro hpos
      exfalso
      nlinarith [h10, (Nat.cast_nonneg m : (0 : ℚ) ≤ (m : ℚ))]

theorem JsNum_ltNatB_iff (neg : Bool) (m : Nat) (e : Int) (n : Nat) (hn : 0 < n) :
    (Core.JsNum.finite neg m e).ltNatB n = true ↔ Core.finiteRat neg m e < (n : ℚ) := by
  have h10 : (0 : ℚ) < (10 : ℚ) ^ e := zpow_pos (by norm_num) e
  cases neg
  · show (false || decide (m * 10 ^ e.toNat < n * 10 ^ (-e).toNat)) = true
      ↔ Core.finiteRat false m e < (n : ℚ)
    rw [show Core.finiteRat false m e = (m : ℚ) * (10 : ℚ) ^ e from by simp [Core.finiteRat]]
    simp only [Bool.false_or, decide_eq_true_eq]
    by_cases he : 0 ≤ e
    · obtain ⟨a, rfl⟩ := Int.eq_ofNat_of_zero_le he
      rw [show ((a : ℤ)).toNat = a from rfl, show (-(a : ℤ)).toNat = 0 from by omega]
      simp only [pow_zero, mul_one]
      rw [show (10 : ℚ) ^ ((a : ℤ)) = (10 : ℚ) ^ a from zpow_natCast 10 a]
      constructor
      · intro h
        exact_mod_cast h
      · intro h
        exact_mod_cast h
    · have h1 : e.toNat = 0 := by omega
      have hb : (((-e).toNat : ℕ) : ℤ) = -e := by omega
      rw [h1]
      simp only [pow_zero, mul_one]
      rw [show (10 : ℚ) ^ e = ((10 : ℚ) ^ ((-e).toNat : ℕ))⁻¹ from by
        rw [← zpow_natCast (10 : ℚ) ((-e).toNat), hb, zpow_neg, inv_inv]]
      rw [show (m : ℚ) * ((10 : ℚ) ^ ((-e).toNat : ℕ))⁻¹
            = (m : ℚ) / (10 : ℚ) ^ ((-e).toNat : ℕ) from (div_eq_mul_inv _ _).symm]
      rw [div_lt_iff₀ (by positivity : (0 : ℚ) < (10 : ℚ) ^ ((-e).toNat : ℕ))]
      constructor
      · intro h
        exact_mod_cast h
      · intro h
        exact_mod_cast h
  · show (true || decide (m * 10 ^ e.toNat < n * 10 ^ (-e).toNat)) = true
      ↔ Core.finiteRat true m e < (n : ℚ)
    rw [show Core.finiteRat true m e = -(m : ℚ) * (10 : ℚ) ^ e from by simp [Core.finiteRat]]
    simp only [Bool.true_or, true_iff]
    have hn2 : (0 : ℚ) < (n : ℚ) := by exact_mod_cast hn
    have hm : (0 : ℚ) ≤ (m : ℚ) * (10 : ℚ) ^ e := mul_nonneg (Nat.cast_nonneg m) h10.le
    nlinarith [hn2, hm]

theorem JsNum_posB_inf (neg : Bool) : (Core.JsNum.inf neg).posB = !neg := rfl

theorem JsNum_ltNatB_inf (neg : Bool) (n : Nat) : (Core.JsNum.inf neg).ltNatB n = neg := rfl

end JsNumFidelity

/-- Claim C1 counterexample: a swarm already holding `MAX_SIZE = 100`
live connections exceeds the cap as soon as `_onincoming` adopts one
more incoming peer, so `numConns ≤ MAX_CONNS` does not hold over the
incoming path. -/
theorem swarm_onincoming_exceeds_cap :
    Core.numConns Core.s100 = Core.MAX_SIZE ∧
    Core.MAX_SIZE < Core.numConns ((Core._onincoming Core.s100 Core.pIn).1) := by
  decide

/-- Claim C1 (amended): `_drain` admits no outbound dial while `numConns`
has reached `MAX_SIZE = 100` — it returns with the swarm unchanged and no
dial effect — whereas `_onincoming` performs no cap check and
unconditionally records the incoming peer in `_peers`. -/
theorem swarm_drain_respects_cap (s : Core.Swarm) (h : Core.MAX_SIZE ≤ Core.numConns s) :
    Core._drain s = (s, []) ∧
    ∀ p : Core.Peer,
      Core.lookupAssoc ((Core._onincoming s p).1).peers p.addr
        = some { p with retries := 0 } := by
  constructor
  · unfold Core._drain
    rw [if_pos (Or.inl h)]
  · intro p
    simp [Core._onincoming, Core._onwire, lookupAssoc_updateAssoc, lookupAssoc_insertAssoc]

/-- Witness for `swarm_drain_respects_cap` at a swarm sitting exactly at
the connection cap. -/
theorem swarm_drain_respects_cap_witness :
    Core.MAX_SIZE ≤ Core.numConns Core.s100 ∧ Core._drain Core.s100 = (Core.s100, []) :=
  ⟨by decide, (swarm_drain_respects_cap Core.s100 (by decide)).1⟩

/-- Claim C2: when a wire ends with the swarm alive and the wire not
destroyed, a peer with `retries < |RECONNECT_WAIT|` is re-enqueued after
exactly `RECONNECT_WAIT[retries]` ms with `retries` incremented; once
`retries` reaches `|RECONNECT_WAIT| = 8` the handler removes the peer
permanently, `retries ≤ 8` is invariant, and a continually failing peer
is re-dialed at most 8 times. -/
theorem swarm_wire_end_backoff :
    (∀ (d w : Bool) (r delay r' : Nat),
        Core.wireEndStep d w r = some (delay, r') →
          d = false ∧ w = false ∧ r < Core.RECONNECT_WAIT.length ∧
          delay = Core.RECONNECT_WAIT.getD r 0 ∧ r' = r + 1 ∧
          r' ≤ Core.RECONNECT_WAIT.length) ∧
    (∀ (d w : Bool) (r : Nat), Core.RECONNECT_WAIT.length ≤ r →
        Core.wireEndStep d w r = none) ∧
    (∀ (k r' : Nat), Core.retriesAfter k 0 = some r' →
        r' = k ∧ k ≤ Core.RECONNECT_WAIT.length) ∧
    Core.RECONNECT_WAIT = [1000, 5000, 15000, 30000, 60000, 120000, 300000, 600000] := by
  have hlen : Core.RECONNECT_WAIT.length = 8 := rfl
  refine ⟨?_, ?_, ?_, rfl⟩
  · intro d w r delay r' h
    unfold Core.wireEndStep at h
    by_cases hc : d = true ∨ w = true ∨ Core.RECONNECT_WAIT.length ≤ r
    · rw [if_pos hc] at h
      exact Option.noConfusion h
    · rw [if_neg hc] at h
      push_neg at hc
      obtain ⟨hd, hw, hr⟩ := hc
      have hd' : d = false := by simpa using hd
      have hw' : w = false := by simpa using hw
      simp only [Option.some.injEq, Prod.mk.injEq] at h
      obtain ⟨h1, h2⟩ := h
      refine ⟨hd', hw', by omega, h1.symm, h2.symm, by omega⟩
  · intro d w r hr
    unfold Core.wireEndStep
    rw [if_pos (Or.inr (Or.inr hr))]
  · intro k r' h
    obtain ⟨h1, h2⟩ := retriesAfter_spec k 0 r' h
    rcases Nat.eq_zero_or_pos k with hk | hk
    · constructor <;> omega
    · have := h2 hk
      constructor <;> omega

/-- Witness for `swarm_wire_end_backoff`: a third failure is rescheduled
after 15000 ms with the counter at 3, and the handler is terminal at 8. -/
theorem swarm_wire_end_backoff_witness :
    Core.wireEndStep false false 2 = some (15000, 3) ∧
    (3 : Nat) ≤ Core.RECONNECT_WAIT.length ∧
    Core.wireEndStep false false 8 = none :=
  ⟨by decide, (swarm_wire_end_backoff.1 false false 2 15000 3 (by decide)).2.2.2.2.2,
   swarm_wire_end_backoff.2.1 false false 8 (by decide)⟩

/-- Claim C3 counterexample: `destroy()` has no already-destroyed guard,
so calling it twice on the same swarm schedules two `close` emissions —
`close` is not emitted at most once per swarm lifetime. -/
theorem swarm_destroy_twice_double_close :
    ¬ (Core.countClose
        ((Core.destroy Core.s3c).2 ++ (Core.destroy (Core.destroy Core.s3c).1).2) ≤ 1) := by
  decide

/-- Claim C3 (amended): one `destroy()` call removes every peer from
`_peers`, marks the swarm destroyed, detaches it from the Pool and
schedules exactly one `close` emission, ordered after the removals and
the detach (it fires on the next tick, after `destroy` returns); but the
method is unguarded, so each further call schedules one more `close`. -/
theorem swarm_destroy_spec (s : Core.Swarm) :
    ((Core.destroy s).1).peers = [] ∧
    ((Core.destroy s).1).destroyed = true ∧
    (Core.destroy s).2 = [Core.Effect.detachPool, Core.Effect.emit "close"] ∧
    Core.countClose (Core.destroy s).2 = 1 := by
  refine ⟨?_, ?_, rfl, rfl⟩
  · have h1 : (Core.destroy s).1
        = (({ s with destroyed := true } : Core.Swarm).peers.map Prod.fst).foldl
            Core._remove { s with destroyed := true } := rfl
    rw [h1, foldl_remove_peers]
    exact foldl_eraseKey_all _ _ (fun kv hkv => List.mem_map_of_mem Prod.fst hkv)
  · have h1 : (Core.destroy s).1
        = (({ s with destroyed := true } : Core.Swarm).peers.map Prod.fst).foldl
            Core._remove { s with destroyed := true } := rfl
    rw [h1, foldl_remove_destroyed]

/-- Claim C4: `Peer.prototype.destroy` of the peer module is idempotent:
every call leaves the one-way `destroyed` flag set, a call on an
already-destroyed peer returns immediately without mutating the peer or
its swarm and without raising, and `n ≥ 1` calls produce exactly the
outcome of a single call (final peer and swarm states and raised
exceptions). -/
theorem peer_destroy_idempotent (ps : PeerMod.PeerState) (sv : PeerMod.SwarmView) (n : Nat)
    (h : 1 ≤ n) :
    PeerMod.destroyIter n ps sv = PeerMod.destroyIter 1 ps sv ∧
    ((PeerMod.destroy ps sv).1.1).destroyed = true ∧
    (ps.destroyed = true → PeerMod.destroy ps sv = ((ps, sv), none)) := by
  refine ⟨?_, destroy_sets_destroyed ps sv, destroy_of_destroyed ps sv⟩
  obtain ⟨m, rfl⟩ : ∃ m, n = m + 1 := ⟨n - 1, by omega⟩
  have hset := destroy_sets_destroyed ps sv
  have h1 := destroyIter_of_destroyed m (PeerMod.destroy ps sv).1.1 (PeerMod.destroy ps sv).1.2 hset
  have h0 := destroyIter_of_destroyed 0 (PeerMod.destroy ps sv).1.1 (PeerMod.destroy ps sv).1.2 hset
  simp only [PeerMod.destroyIter, h1, h0]

/-- Witness for `peer_destroy_idempotent`: three destroy calls on an
outgoing peer equal one. -/
theorem peer_destroy_idempotent_witness :
    (1 : Nat) ≤ 3 ∧
    PeerMod.destroyIter 3 PeerMod.psOut PeerMod.svW
      = PeerMod.destroyIter 1 PeerMod.psOut PeerMod.svW :=
  ⟨by decide, (peer_destroy_idempotent PeerMod.psOut PeerMod.svW 3 (by decide)).1⟩

/-- Claim C5 counterexample: the handshake deadline armed by an outbound
`_drain` dial is the swarm module's `HANDSHAKE_TIMEOUT = 5000` ms, not
the claimed 25000 ms. -/
theorem swarm_drain_timeout_not_25000 :
    (Core._drain Core.sD).2 = [Core.Effect.dial "a:1" 5000] ∧
    Core.HANDSHAKE_TIMEOUT = 5000 ∧ (5000 : Nat) ≠ 25000 := by
  decide

/-- Claim C5 (amended): every outbound dial started by `_drain` arms the
swarm module's single `HANDSHAKE_TIMEOUT = 5000` ms deadline — the same
constant the Pool's incoming path arms — while the peer module's
`setTimeout` uses its own `HANDSHAKE_TIMEOUT = 25000` ms; in each case
the deadline firing destroys the connection. -/
theorem swarm_handshake_timeout_constants (s : Core.Swarm) (a : String) (t : Nat)
    (h : Core.Effect.dial a t ∈ (Core._drain s).2) :
    t = Core.HANDSHAKE_TIMEOUT ∧ Core.HANDSHAKE_TIMEOUT = 5000 ∧
    Core.onconnTimeoutMs = Core.HANDSHAKE_TIMEOUT ∧ PeerMod.HANDSHAKE_TIMEOUT = 25000 := by
  refine ⟨?_, rfl, rfl, rfl⟩
  unfold Core._drain at h
  by_cases hg : Core.MAX_SIZE ≤ Core.numConns s ∨ s.paused = true
  · rw [if_pos hg] at h
    exact absurd h (List.not_mem_nil _)
  · rw [if_neg hg] at h
    rcases hq : s.queue with _ | ⟨addr, rest⟩ <;> rw [hq] at h
    · exact absurd h (List.not_mem_nil _)
    · simp at h
      exact h.2

/-- Witness for `swarm_handshake_timeout_constants` at a swarm with one
queued peer. -/
theorem swarm_handshake_timeout_constants_witness :
    Core.Effect.dial "a:1" 5000 ∈ (Core._drain Core.sD).2 ∧
    (5000 : Nat) = Core.HANDSHAKE_TIMEOUT :=
  ⟨by decide, (swarm_handshake_timeout_constants Core.sD "a:1" 5000 (by decide)).1⟩

/-- Claim C6 counterexample: a listening pool that already holds
info-hash `aa` rejects a second swarm with the same hash — the pool
state is unchanged and an `error` is scheduled on it — yet a `listening`
event is also scheduled on the rejected swarm, so `listening` is not
emitted only when the add succeeds. -/
theorem pool_addSwarm_listening_despite_reject :
    (Core.addSwarm Core.pC6 2 "aa").1 = Core.pC6 ∧
    (Core.addSwarm Core.pC6 2 "aa").2
      = [Core.PoolEvent.listening 2, Core.PoolEvent.error 2] := by
  decide

/-- Claim C6 (amended): `addSwarm` rejects a duplicate info-hash by
scheduling an `error` on the colliding swarm while leaving the pool (and
hence the first swarm's registration) unchanged, and on a fresh
info-hash it registers the swarm and schedules no `error`; but the
`listening` event is scheduled on the argument swarm exactly when the
pool is already listening, regardless of whether the add succeeds. -/
theorem pool_addSwarm_spec (p : Core.PoolSt) (sid : Nat) (ih : String) :
    ((Core.lookupAssoc p.swarms ih).isSome = true →
        (Core.addSwarm p sid ih).1 = p ∧
        Core.PoolEvent.error sid ∈ (Core.addSwarm p sid ih).2) ∧
    ((Core.lookupAssoc p.swarms ih).isSome = false →
        (Core.addSwarm p sid ih).1.swarms = p.swarms ++ [(ih, sid)] ∧
        Core.PoolEvent.error sid ∉ (Core.addSwarm p sid ih).2) ∧
    (Core.PoolEvent.listening sid ∈ (Core.addSwarm p sid ih).2 ↔ p.listening = true) := by
  rcases hsome : Core.lookupAssoc p.swarms ih with _ | v
  · refine ⟨fun hdup => by simp [hsome] at hdup, fun _ => ?_, ?_⟩
    · constructor
      · simp [Core.addSwarm, hsome, insertAssoc_of_absent p.swarms ih sid hsome]
      · by_cases hL : p.listening = true <;> simp [Core.addSwarm, hsome, hL]
    · by_cases hL : p.listening = true <;> simp [Core.addSwarm, hsome, hL]
  · refine ⟨fun _ => ?_, fun habs => by simp [hsome] at habs, ?_⟩
    · constructor
      · simp [Core.addSwarm, hsome]
      · by_cases hL : p.listening = true <;> simp [Core.addSwarm, hsome, hL]
    · by_cases hL : p.listening = true <;> simp [Core.addSwarm, hsome, hL]

/-- Witness for `pool_addSwarm_spec`: a fresh info-hash is registered on
a non-listening pool. -/
theorem pool_addSwarm_spec_witness :
    (Core.lookupAssoc Core.pW.swarms "bb").isSome = false ∧
    (Core.addSwarm Core.pW 3 "bb").1.swarms = Core.pW.swarms ++ [("bb", 3)] :=
  ⟨by decide, ((pool_addSwarm_spec Core.pW 3 "bb").2.1 (by decide)).1⟩

/-- Claim C7 (code bug): with the bind retries exhausted, `_onerror`
sets the pool non-listening but then raises a TypeError — `this.swarms`
is a plain object, which has no `forEach` method — so no member swarm
receives the promised `error` event; the retry branch itself schedules a
1000 ms re-listen as claimed. -/
theorem pool_onerror_exhausted_throws :
    (Core.onerror Core.p7 "EADDRINUSE").thrown
      = some "TypeError: this.swarms.forEach is not a function" ∧
    (Core.onerror Core.p7 "EADDRINUSE").errorsDelivered = [] ∧
    ((Core.onerror Core.p7 "EADDRINUSE").pool).listening = false ∧
    (Core.onerror { Core.p7 with retries := 0 } "EADDRINUSE").retryDelayMs = some 1000 ∧
    (Core.onerror { Core.p7 with retries := 0 } "EADDRINUSE").thrown = none := by
  decide

/-- Claim C8 (code bug): `_remove` on a peer that is sitting on `_queue`
deletes it from `_peers` but leaves it on `_queue` — the queue splice is
guarded by `peer.node`, a property nothing ever assigns — while the
claim requires the peer to leave both; the absent-peer case is a no-op
as claimed. -/
theorem swarm_remove_leaves_peer_on_queue :
    (Core._remove Core.s8 "9.9.9.9:9").peers = [] ∧
    (Core._remove Core.s8 "9.9.9.9:9").queue = ["9.9.9.9:9"] ∧
    Core._remove Core.s8 "absent:1" = Core.s8 := by
  decide

/-- Claim C9 counterexample: `"h:80.5"` has no decimal-integer port, so
under the claim's validation `add` must be a no-op on a fresh,
non-destroyed swarm — yet the code's `Number`-based validator accepts it
and `add` records the peer. -/
theorem swarm_add_accepts_noninteger_port :
    Core.validAddrSpec "h:80.5" = false ∧
    Core.s9.destroyed = false ∧
    (Core.lookupAssoc Core.s9.peers "h:80.5").isSome = false ∧
    Core.validAddr "h:80.5" = true ∧
    (Core.add Core.s9 "h:80.5").1 ≠ Core.s9 := by
  decide

/-- Claim C9 (amended): `add` is a no-op when the swarm is destroyed,
when a peer with that key exists, or when `validAddr` rejects the
address — where `validAddr` computes the JS numeric value of the port
substring (so it also accepts non-integer decimal ports) and accepts iff
`0 < port < 65535`; otherwise `add` records exactly one new peer,
appends it to `_queue` and calls `_drain`. -/
theorem swarm_add_spec (s : Core.Swarm) (addr : String) :
    (s.destroyed = true → Core.add s addr = (s, [])) ∧
    ((Core.lookupAssoc s.peers addr).isSome = true → Core.add s addr = (s, [])) ∧
    (Core.validAddr addr = false → Core.add s addr = (s, [])) ∧
    (s.destroyed = false → (Core.lookupAssoc s.peers addr).isSome = false →
      Core.validAddr addr = true →
      Core.add s addr
        = Core._drain { s with peers := s.peers ++ [(addr, Core.newPeer addr)],
                               queue := s.queue ++ [addr] }) := by
  refine ⟨?_, ?_, ?_, ?_⟩
  · intro hd
    simp [Core.add, hd]
  · intro hdup
    simp [Core.add, hdup]
  · intro hv
    by_cases hg : (s.destroyed || (Core.lookupAssoc s.peers addr).isSome) = true
    · simp [Core.add, hg]
    · simp [Core.add, hg, hv]
  · intro hd hdup hv
    have hnone : Core.lookupAssoc s.peers addr = none := by
      cases hq : Core.lookupAssoc s.peers addr
      · rfl
      · rw [hq] at hdup
        simp at hdup
    simp [Core.add, hd, hdup, hv, insertAssoc_of_absent s.peers addr _ hnone]

/-- Witness for `swarm_add_spec`: a well-formed address is recorded,
queued and drained on a fresh swarm. -/
theorem swarm_add_spec_witness :
    Core.validAddr "1.2.3.4:6881" = true ∧
    Core.add Core.sW9 "1.2.3.4:6881"
      = Core._drain { Core.sW9 with
          peers := Core.sW9.peers ++ [("1.2.3.4:6881", Core.newPeer "1.2.3.4:6881")],
          queue := Core.sW9.queue ++ ["1.2.3.4:6881"] } :=
  ⟨by decide, (swarm_add_spec Core.sW9 "1.2.3.4:6881").2.2.2 (by decide) (by decide) (by decide)⟩

/-- Claim C10 (code bug): destroying a peer whose swarm back-reference
is null — every `createIncomingTCPPeer` peer until a swarm adopts it,
e.g. when the handshake deadline armed in `onConnect` fires — raises a
TypeError at the unguarded `self.swarm.wires.splice(...)` instead of
completing the teardown. -/
theorem peer_destroy_null_swarm_throws :
    PeerMod.psIn.swarmPresent = false ∧
    (PeerMod.destroy PeerMod.psIn PeerMod.svIn).2
      = some "TypeError: Cannot read property wires of null" ∧
    ((PeerMod.destroy PeerMod.psIn PeerMod.svIn).1.1).destroyed = true := by
  decide
